import Mathlib

/-!
Shallow embedding of the external process runner of the
`cursor-opencode-auth` repository.

The embedded code is:
* `src/packages/cursor-openai-bridge/src/lib/process.ts` — the process
  runner `run` and its Windows resolution helper
  `resolveWindowsCursorAgent`;
* `src/packages/opencode-plugin-cursor/src/index.ts` — the environment
  precedence function `getCursorAgentBin`.

The runner is event-driven JavaScript; we model the ambient platform
(the `process.platform` value, the `COMSPEC` variable, the output of the
`where` lookup, the result of the one `readdir` call, and the observable
behavior of the spawned child) as an explicit `Env` record, and the
runner as pure functions of that record.  JS string primitives used by
the source (`endsWith`, `trim`, `split`, truthiness of strings, `||`
defaulting) are modelled by explicit Lean functions on `List Char`.
-/

namespace CursorBridge

/-- Mirror of `RunResult` in process.ts: exit code and the accumulated
stdout/stderr text. -/
structure RunResult where
  code : Int
  stdout : String
  stderr : String
deriving DecidableEq

/-- Mirror of `RunOptions` in process.ts. `timeoutMs` and `stdin` are
optional fields; `none` models an absent (undefined) field. -/
structure RunOptions where
  cwd : Option String
  timeoutMs : Option Int
  stdin : Option String
deriving DecidableEq

/-- Model of a Node.js error value: its optional `code` property (for
example `"ENOENT"`) and its message. -/
structure JsError where
  code : Option String
  message : String
deriving DecidableEq

/-- Observable behavior of one spawned child process: either the
`error` event fires with a platform error, or the output streams
deliver their chunks in order and the `close` event fires with the
platform-reported exit code (`none` when the platform reports none). -/
inductive SpawnOutcome where
  | errored (err : JsError)
  | closed (code : Option Int) (stdoutChunks stderrChunks : List String)
deriving DecidableEq

/-- Ambient platform state consulted by one invocation of `run`:
the platform string, the `COMSPEC` environment variable, the stdout
text produced by the `where agent` lookup, the result of the single
`readdir` of the versions directory (`Except.error` models a thrown
listing error), and the behavior of the child process as a function of
the command and arguments actually spawned. -/
structure Env where
  platform : String
  comspec : Option String
  whereStdout : String
  readdirVersions : Except Unit (List String)
  spawn : String → List String → SpawnOutcome

/-- Does the first list occur at the head of the second list? -/
def charsStartWith : List Char → List Char → Bool
  | [], _ => true
  | _ :: _, [] => false
  | a :: as, b :: bs => a == b && charsStartWith as bs

/-- Does `pat` occur as a contiguous sublist of the haystack? -/
def charsContain (pat : List Char) : List Char → Bool
  | [] => charsStartWith pat []
  | c :: cs => charsStartWith pat (c :: cs) || charsContain pat cs

/-- Substring test on strings, used to state properties of error
messages. -/
def containsStr (s pat : String) : Bool :=
  charsContain pat.toList s.toList

/-- Model of the JS `String.prototype.endsWith` test. -/
def strEndsWith (s pat : String) : Bool :=
  charsStartWith pat.toList.reverse s.toList.reverse

/-- Model of JS `String.prototype.trim`: strip leading and trailing
whitespace. -/
def jsTrim (s : String) : String :=
  String.mk (((s.toList.dropWhile Char.isWhitespace).reverse.dropWhile
    Char.isWhitespace).reverse)

/-- The first piece of a split on the regex `\r?\n`: the characters
before the first newline, with a carriage return dropped when it
immediately precedes that newline. -/
def firstSplitPiece : List Char → List Char
  | [] => []
  | '\r' :: '\n' :: _ => []
  | '\n' :: _ => []
  | c :: rest => c :: firstSplitPiece rest

/-- Model of `s.trim().split(/\r?\n/)[0]` from the `where` lookup in
`resolveWindowsCursorAgent`. -/
def firstLineTrimmed (s : String) : String :=
  String.mk (firstSplitPiece (jsTrim s).toList)

/-- Simplified model of Node's `path.dirname` on Windows: the part of
the path before its last path separator, or `"."` when there is none. -/
def winDirname (p : String) : String :=
  match p.toList.reverse.findIdx? (fun c => c == '\\' || c == '/') with
  | none => "."
  | some i => String.mk (p.toList.take (p.toList.length - i - 1))

/-- Simplified model of Node's `path.join` on Windows. -/
def winJoin (a b : String) : String :=
  a ++ "\\" ++ b

/-- Lowercase hex digit test, for the `[a-f0-9]+` part of the version
regex. -/
def isLowerHex (c : Char) : Bool :=
  c.isDigit || ('a' ≤ c && c ≤ 'f')

/-- Decision procedure for the version-directory regex
`^\d{4}\.\d{1,2}\.\d{1,2}-[a-f0-9]+$` from `resolveWindowsCursorAgent`.
Because every quantified digit run is followed by a non-digit
separator, greedy matching without backtracking coincides with the
regex semantics. -/
def matchesVersionPattern (s : String) : Bool :=
  match s.toList.span Char.isDigit with
  | (year, '.' :: r1) =>
    match r1.span Char.isDigit with
    | (mon, '.' :: r2) =>
      match r2.span Char.isDigit with
      | (day, '-' :: hex) =>
        year.length == 4 && (mon.length == 1 || mon.length == 2) &&
          (day.length == 1 || day.length == 2) && !hex.isEmpty &&
          hex.all isLowerHex
      | _ => false
    | _ => false
  | _ => false

/-- Lexicographic order on character lists, comparing code points
position by position. -/
def charsLe : List Char → List Char → Bool
  | [], _ => true
  | _ :: _, [] => false
  | a :: as, b :: bs =>
    if a < b then true else if b < a then false else charsLe as bs

/-- Lexicographic order on strings by code points; this is the order
the JS default `Array.prototype.sort` comparator induces on the
(all-ASCII) version-directory names. -/
def strLe (a b : String) : Bool :=
  charsLe a.toList b.toList

/-- Model of JS `Array.prototype.sort` on strings: a lexicographically
sorted permutation of the input. -/
def sortStrings (l : List String) : List String :=
  List.insertionSort (fun a b => strLe a b = true) l

/-- The `.filter(...).sort().reverse()` selection of the latest version
directory in `resolveWindowsCursorAgent`; `head?` models taking element
`[0]` of a possibly empty array. -/
def selectLatestVersion (entries : List String) : Option String :=
  ((sortStrings (entries.filter matchesVersionPattern)).reverse).head?

/-- Mirror of the anonymous `{ cmd, argsPrefix }` record returned by
`resolveWindowsCursorAgent`. -/
structure AgentRedirect where
  cmd : String
  argsPrefix : List String
deriving DecidableEq

/-- Mirror of `resolveWindowsCursorAgent` in process.ts.  The `where`
subprocess interaction is modelled by `env.whereStdout`; the
`readdir(versionsDir).catch(() => [])` call is modelled by
`env.readdirVersions`, with a thrown listing error collapsing to the
empty listing exactly as the `.catch` handler does. -/
def resolveWindowsCursorAgent (env : Env) (cmd : String) : Option AgentRedirect :=
  if env.platform ≠ "win32" then none
  else if ¬ (strEndsWith cmd "agent.cmd" = true ∨ cmd = "agent") then none
  else
    let agentPath? : Option String :=
      if cmd = "agent" then
        let out := firstLineTrimmed env.whereStdout
        if out ≠ "" ∧ strEndsWith out "agent.cmd" = true then some out else none
      else some cmd
    match agentPath? with
    | none => none
    | some agentPath =>
      let versionsDir := winJoin (winDirname agentPath) "versions"
      let entries :=
        match env.readdirVersions with
        | Except.ok l => l
        | Except.error _ => []
      match selectLatestVersion entries with
      | none => none
      | some latest =>
        some { cmd := winJoin (winJoin versionsDir latest) "node.exe",
               argsPrefix := [winJoin (winJoin versionsDir latest) "index.js"] }

/-- Model of the JS `a || b` default for an optional environment
string: falls through both on an absent variable and on the empty
string (both are falsy). -/
def orElseJS (a : Option String) (b : String) : String :=
  match a with
  | some s => if s = "" then b else s
  | none => b

/-- The command and argument list actually passed to `spawn` by `run`:
the Windows redirect when resolution succeeds, the `COMSPEC` shell
indirection for wrapper scripts on win32, and the direct invocation
otherwise (lines 60–74 of process.ts). -/
def spawnedInvocation (env : Env) (cmd : String) (args : List String) :
    String × List String :=
  match resolveWindowsCursorAgent env cmd with
  | some r => (r.cmd, r.argsPrefix ++ args)
  | none =>
    if env.platform = "win32" ∧
        (strEndsWith cmd ".cmd" = true ∨ strEndsWith cmd ".bat" = true ∨
          cmd = "agent") then
      (orElseJS env.comspec "cmd.exe", ["/d", "/s", "/c", cmd] ++ args)
    else (cmd, args)

/-- The message of the error built by `run` when spawning fails with
`ENOENT`. -/
def notFoundMessage (cmd : String) : String :=
  "Command not found: " ++ cmd ++
    ". Install Cursor CLI (agent) or set CURSOR_AGENT_BIN to its path."

/-- Mirror of `run` in process.ts: choose the actual invocation, spawn
it, and settle the promise according to the child's outcome.  An
`Except.error` value models a rejected promise; `Except.ok` models a
resolution with a `RunResult`. -/
def run (env : Env) (cmd : String) (args : List String) (opts : RunOptions) :
    Except JsError RunResult :=
  let inv := spawnedInvocation env cmd args
  match env.spawn inv.1 inv.2 with
  | SpawnOutcome.errored err =>
    if err.code = some "ENOENT" then
      Except.error { code := none, message := notFoundMessage cmd }
    else Except.error err
  | SpawnOutcome.closed code outs errs =>
    Except.ok { code := code.getD 0,
                stdout := String.join outs,
                stderr := String.join errs }

/-- The stdio mode chosen for the child's standard input:
`opts.stdin ? "pipe" : "ignore"`, where JS truthiness makes both an
absent and an empty stdin option falsy. -/
def stdinStdio (opts : RunOptions) : String :=
  match opts.stdin with
  | some s => if s = "" then "ignore" else "pipe"
  | none => "ignore"

/-- An operation performed on the child's standard-input stream. -/
inductive StdinOp where
  | write (s : String)
  | close
deriving DecidableEq

/-- The sequence of operations `run` performs on the child's stdin:
when `opts.stdin` is truthy the full text is written and the stream is
ended immediately; otherwise nothing happens (lines 84–87 of
process.ts). -/
def stdinOps (opts : RunOptions) : List StdinOp :=
  match opts.stdin with
  | some s => if s = "" then [] else [StdinOp.write s, StdinOp.close]
  | none => []

/-- An action taken by the event handlers installed by `run`. -/
inductive HandlerAction where
  | clearTimer
  | resolve (r : RunResult)
  | reject (e : JsError)
  | kill (signal : String)
deriving DecidableEq

/-- The timeout timer armed by `run`: present exactly when
`typeof timeoutMs === "number" && timeoutMs > 0`, and firing it kills
the child with `SIGKILL` (lines 89–95 of process.ts). -/
def timerSpec (opts : RunOptions) : Option (Int × HandlerAction) :=
  match opts.timeoutMs with
  | some t => if t > 0 then some (t, HandlerAction.kill "SIGKILL") else none
  | none => none

/-- The ordered actions performed by the `error` / `close` handler that
settles the promise: both handlers first clear the armed timer (when
one exists) and then settle (lines 109–125 of process.ts). -/
def handlerTrace (env : Env) (cmd : String) (args : List String)
    (opts : RunOptions) : List HandlerAction :=
  let inv := spawnedInvocation env cmd args
  let clearing :=
    if (timerSpec opts).isSome then [HandlerAction.clearTimer] else []
  match env.spawn inv.1 inv.2 with
  | SpawnOutcome.errored err =>
    clearing ++
      [if err.code = some "ENOENT" then
        HandlerAction.reject { code := none, message := notFoundMessage cmd }
      else HandlerAction.reject err]
  | SpawnOutcome.closed code outs errs =>
    clearing ++
      [HandlerAction.resolve
        { code := code.getD 0,
          stdout := String.join outs,
          stderr := String.join errs }]

/-- The three environment variables read by `getCursorAgentBin` in
`src/packages/opencode-plugin-cursor/src/index.ts`. -/
structure PluginEnv where
  CURSOR_AGENT_BIN : Option String
  CURSOR_CLI_BIN : Option String
  CURSOR_CLI_PATH : Option String
deriving DecidableEq

/-- Mirror of `getCursorAgentBin`: the JS `||` chain over the three
environment variables with literal default `"agent"`. -/
def getCursorAgentBin (env : PluginEnv) : String :=
  orElseJS env.CURSOR_AGENT_BIN
    (orElseJS env.CURSOR_CLI_BIN
      (orElseJS env.CURSOR_CLI_PATH "agent"))

/-- Restatement of the claimed precedence in the spec's words: use
`CURSOR_AGENT_BIN` when set and non-empty, else `CURSOR_CLI_BIN` when
set and non-empty, else `CURSOR_CLI_PATH` when set and non-empty, else
the literal `"agent"`. -/
def getCursorAgentBinSpec (env : PluginEnv) : String :=
  match env.CURSOR_AGENT_BIN with
  | some s =>
    if s ≠ "" then s
    else
      match env.CURSOR_CLI_BIN with
      | some t =>
        if t ≠ "" then t
        else
          match env.CURSOR_CLI_PATH with
          | some u => if u ≠ "" then u else "agent"
          | none => "agent"
      | none =>
        match env.CURSOR_CLI_PATH with
        | some u => if u ≠ "" then u else "agent"
        | none => "agent"
  | none =>
    match env.CURSOR_CLI_BIN with
    | some t =>
      if t ≠ "" then t
      else
        match env.CURSOR_CLI_PATH with
        | some u => if u ≠ "" then u else "agent"
        | none => "agent"
    | none =>
      match env.CURSOR_CLI_PATH with
      | some u => if u ≠ "" then u else "agent"
      | none => "agent"

/-! ### Concrete environments used to instantiate the theorems -/

/-- Linux-like environment whose child closes with code 5 after
emitting two stdout chunks and one stderr chunk. -/
def envClose : Env :=
  { platform := "linux", comspec := none, whereStdout := "",
    readdirVersions := Except.ok [],
    spawn := fun _ _ => SpawnOutcome.closed (some 5) ["a", "b"] ["e"] }

/-- Environment whose child emits the `error` event with an `ENOENT`
error. -/
def envNoent : Env :=
  { platform := "linux", comspec := none, whereStdout := "",
    readdirVersions := Except.ok [],
    spawn := fun _ _ =>
      SpawnOutcome.errored { code := some "ENOENT", message := "spawn ENOENT" } }

/-- Environment whose child emits the `error` event with an error whose
code is not `ENOENT`. -/
def envEacces : Env :=
  { platform := "linux", comspec := none, whereStdout := "",
    readdirVersions := Except.ok [],
    spawn := fun _ _ =>
      SpawnOutcome.errored { code := some "EACCES", message := "denied" } }

/-- Windows environment where the `where` lookup resolves the agent
wrapper and the versions directory lists two version entries and one
non-matching entry. -/
def envRedirect : Env :=
  { platform := "win32", comspec := none,
    whereStdout := "C:\\u\\agent.cmd\r\n",
    readdirVersions :=
      Except.ok ["2024.1.2-abc123", "2024.10.1-def456", "junk"],
    spawn := fun _ _ => SpawnOutcome.closed (some 0) [] [] }

/-- Windows environment where the `where` lookup produces no output. -/
def envNoWhere : Env :=
  { platform := "win32", comspec := none, whereStdout := "",
    readdirVersions := Except.ok ["2024.1.2-abc123"],
    spawn := fun _ _ => SpawnOutcome.closed (some 0) [] [] }

/-- Windows environment where listing the versions directory throws. -/
def envListErr : Env :=
  { platform := "win32", comspec := some "C:\\WINDOWS\\system32\\cmd.exe",
    whereStdout := "C:\\u\\agent.cmd\r\n",
    readdirVersions := Except.error (),
    spawn := fun _ _ => SpawnOutcome.closed (some 0) ["out"] [] }

/-- Environment whose child echoes the supplied stdin text to stdout
and closes with code 0. -/
def envEcho : Env :=
  { platform := "linux", comspec := none, whereStdout := "",
    readdirVersions := Except.ok [],
    spawn := fun _ _ => SpawnOutcome.closed (some 0) ["hello"] [] }

/-! ### Order lemmas for the lexicographic comparator -/

theorem charsLe_refl : ∀ a : List Char, charsLe a a = true
  | [] => rfl
  | a :: as => by
    simp only [charsLe, lt_self_iff_false, if_false]
    exact charsLe_refl as

theorem charsLe_total : ∀ a b : List Char, charsLe a b = true ∨ charsLe b a = true
  | [], _ => Or.inl rfl
  | _ :: _, [] => Or.inr rfl
  | a :: as, b :: bs => by
    rcases lt_trichotomy a b with h | h | h
    · left; simp [charsLe, h]
    · subst h
      rcases charsLe_total as bs with ih | ih
      · left; simp [charsLe, ih]
      · right; simp [charsLe, ih]
    · right; simp [charsLe, h]

theorem charsLe_trans :
    ∀ a b c : List Char, charsLe a b = true → charsLe b c = true →
      charsLe a c = true
  | [], _, _, _, _ => rfl
  | _ :: _, [], _, h, _ => by simp [charsLe] at h
  | _ :: _, _ :: _, [], _, h2 => by simp [charsLe] at h2
  | a :: as, b :: bs, c :: cs, h1, h2 => by
    simp only [charsLe] at h1 h2 ⊢
    rcases lt_trichotomy a b with hab | hab | hab
    · rcases lt_trichotomy b c with hbc | hbc | hbc
      · simp [lt_trans hab hbc]
      · subst hbc; simp [hab]
      · simp [hbc, asymm hbc] at h2
    · subst hab
      rcases lt_trichotomy a c with hac | hac | hac
      · simp [hac]
      · subst hac
        simp only [lt_self_iff_false, if_false] at h1 h2 ⊢
        exact charsLe_trans as bs cs h1 h2
      · simp [hac, asymm hac] at h2
    · simp [hab, asymm hab] at h1

theorem strLe_refl (a : String) : strLe a a = true :=
  charsLe_refl a.toList

theorem strLe_total (a b : String) : strLe a b = true ∨ strLe b a = true :=
  charsLe_total a.toList b.toList

theorem strLe_trans {a b c : String} (h1 : strLe a b = true)
    (h2 : strLe b c = true) : strLe a c = true :=
  charsLe_trans a.toList b.toList c.toList h1 h2

instance : IsTotal String (fun a b => strLe a b = true) :=
  ⟨strLe_total⟩

instance : IsTrans String (fun a b => strLe a b = true) :=
  ⟨fun _ _ _ => strLe_trans⟩

/-- The element selected by `selectLatestVersion` belongs to the
matching entries and is greatest among them in the lexicographic
order. -/
theorem selectLatestVersion_greatest (entries : List String) (m : String)
    (h : selectLatestVersion entries = some m) :
    m ∈ entries.filter matchesVersionPattern ∧
      ∀ x ∈ entries.filter matchesVersionPattern, strLe x m = true := by
  classical
  set ms := entries.filter matchesVersionPattern with hms
  have hperm : List.Perm (sortStrings ms) ms :=
    List.perm_insertionSort (fun a b => strLe a b = true) ms
  have hsorted : List.Sorted (fun a b => strLe a b = true) (sortStrings ms) :=
    List.sorted_insertionSort (fun a b => strLe a b = true) ms
  unfold selectLatestVersion at h
  rw [← hms] at h
  cases hs : (sortStrings ms).reverse with
  | nil => rw [hs] at h; simp at h
  | cons y t =>
    rw [hs] at h
    simp only [List.head?_cons, Option.some.injEq] at h
    subst h
    have hsplit : sortStrings ms = t.reverse ++ [y] := by
      have := congrArg List.reverse hs
      simpa [List.reverse_cons] using this
    have hmem_s : y ∈ sortStrings ms := by
      rw [hsplit]; exact List.mem_append_right _ (List.mem_singleton_self y)
    have hbound : ∀ x ∈ t.reverse, strLe x y = true := by
      have hsorted' := hsorted
      rw [hsplit] at hsorted'
      intro x hx
      rcases (List.pairwise_append.mp hsorted') with ⟨_, _, hrel⟩
      exact hrel x hx y (List.mem_singleton_self y)
    constructor
    · exact hperm.mem_iff.mp hmem_s
    · intro x hx
      have hx_s : x ∈ sortStrings ms := hperm.mem_iff.mpr hx
      rw [hsplit] at hx_s
      rcases List.mem_append.mp hx_s with hx_t | hx_m
      · exact hbound x hx_t
      · rcases List.mem_singleton.mp hx_m with rfl
        exact strLe_refl _

/-- When some entry matches the version pattern, `selectLatestVersion`
selects one. -/
theorem selectLatestVersion_isSome (entries : List String)
    (h : entries.filter matchesVersionPattern ≠ []) :
    (selectLatestVersion entries).isSome = true := by
  classical
  unfold selectLatestVersion
  set ms := entries.filter matchesVersionPattern with hms
  have hperm : List.Perm (sortStrings ms) ms :=
    List.perm_insertionSort (fun a b => strLe a b = true) ms
  have hne : sortStrings ms ≠ [] := by
    intro hnil
    apply h
    have := hperm.length_eq
    rw [hnil] at this
    exact List.length_eq_zero.mp this.symm
  cases hs : (sortStrings ms).reverse with
  | nil => exact absurd (List.reverse_eq_nil_iff.mp hs) hne
  | cons y t => simp [hs]

/-! ### Substring lemmas for the not-found message -/

theorem charsStartWith_append_self :
    ∀ p r : List Char, charsStartWith p (p ++ r) = true
  | [], _ => rfl
  | a :: as, r => by
    simp only [List.cons_append, charsStartWith, beq_self_eq_true,
      Bool.true_and]
    exact charsStartWith_append_self as r

theorem charsContain_append_self (p r : List Char) :
    charsContain p (p ++ r) = true := by
  cases hp : p ++ r with
  | nil =>
    rcases List.append_eq_nil.mp hp with ⟨rfl, rfl⟩
    rfl
  | cons c cs =>
    show (charsStartWith p (c :: cs) || charsContain p cs) = true
    rw [← hp, charsStartWith_append_self]
    rfl

theorem charsContain_append_left :
    ∀ x p h : List Char, charsContain p h = true →
      charsContain p (x ++ h) = true
  | [], _, _, hc => hc
  | c :: cs, p, h, hc => by
    have ih := charsContain_append_left cs p h hc
    show (charsStartWith p (c :: (cs ++ h)) || charsContain p (cs ++ h)) = true
    rw [ih, Bool.or_true]

theorem toList_append (a b : String) :
    (a ++ b).toList = a.toList ++ b.toList := by
  cases a
  cases b
  rfl

theorem containsStr_notFoundMessage_self (cmd : String) :
    containsStr (notFoundMessage cmd) cmd = true := by
  unfold containsStr notFoundMessage
  rw [toList_append, toList_append, List.append_assoc]
  exact charsContain_append_left _ _ _ (charsContain_append_self _ _)

theorem containsStr_notFoundMessage_agentBin (cmd : String) :
    containsStr (notFoundMessage cmd) "CURSOR_AGENT_BIN" = true := by
  unfold containsStr notFoundMessage
  rw [toList_append, toList_append, List.append_assoc]
  apply charsContain_append_left
  apply charsContain_append_left
  decide

theorem selectLatestVersion_nil : selectLatestVersion [] = none := rfl

/-! ### The claims -/

/-- Claim C1: when the spawned child delivers its stream chunks and
emits `close` with platform code `c`, `run` resolves with a RunResult
whose exit code is `c` when `c` is non-null and 0 when the platform
reports none, and whose stdout and stderr are the in-order
concatenations of the received chunks. -/
theorem run_resolves_on_close (env : Env) (cmd : String) (args : List String)
    (opts : RunOptions) (c : Option Int) (outs errs : List String)
    (h : env.spawn (spawnedInvocation env cmd args).1
        (spawnedInvocation env cmd args).2 = SpawnOutcome.closed c outs errs) :
    ∃ r : RunResult, run env cmd args opts = Except.ok r ∧
      (∀ k, c = some k → r.code = k) ∧ (c = none → r.code = 0) ∧
      r.stdout = String.join outs ∧ r.stderr = String.join errs := by
  refine ⟨⟨c.getD 0, String.join outs, String.join errs⟩, ?_, ?_, ?_, rfl, rfl⟩
  · simp only [run]
    rw [h]
  · intro k hk
    simp [hk]
  · intro hk
    simp [hk]

/-- Witness instantiating `run_resolves_on_close` at `envClose`. -/
theorem run_resolves_on_close_witness :
    ∃ r : RunResult, run envClose "c" [] ⟨none, none, none⟩ = Except.ok r ∧
      (∀ k, (some (5 : Int)) = some k → r.code = k) ∧
      ((some (5 : Int)) = none → r.code = 0) ∧
      r.stdout = String.join ["a", "b"] ∧ r.stderr = String.join ["e"] :=
  run_resolves_on_close envClose "c" [] ⟨none, none, none⟩ (some 5)
    ["a", "b"] ["e"] rfl

/-- Claim C2 counterexample: at the concrete command `mycmd` the
rejection produced on ENOENT has the modelled not-found message, and
that message names only one of the three recognized override variables
(`CURSOR_AGENT_BIN`, `CURSOR_CLI_BIN`, `CURSOR_CLI_PATH`), not two. -/
theorem run_enoent_message_counterexample :
    run envNoent "mycmd" [] ⟨none, none, none⟩ =
        Except.error { code := none, message := notFoundMessage "mycmd" } ∧
      ¬ 2 ≤ List.countP (fun v => containsStr (notFoundMessage "mycmd") v)
          ["CURSOR_AGENT_BIN", "CURSOR_CLI_BIN", "CURSOR_CLI_PATH"] := by
  constructor
  · rfl
  · decide

/-- Claim C2 (amended): on an ENOENT spawn failure, `run` rejects with
an error whose message contains the literal requested command and names
one recognized override environment variable, `CURSOR_AGENT_BIN`; no
RunResult is produced. -/
theorem run_enoent_rejects_descriptive (env : Env) (cmd : String)
    (args : List String) (opts : RunOptions) (err : JsError)
    (h : env.spawn (spawnedInvocation env cmd args).1
        (spawnedInvocation env cmd args).2 = SpawnOutcome.errored err)
    (hc : err.code = some "ENOENT") :
    run env cmd args opts =
        Except.error { code := none, message := notFoundMessage cmd } ∧
      containsStr (notFoundMessage cmd) cmd = true ∧
      containsStr (notFoundMessage cmd) "CURSOR_AGENT_BIN" = true := by
  refine ⟨?_, containsStr_notFoundMessage_self cmd,
    containsStr_notFoundMessage_agentBin cmd⟩
  simp only [run]
  rw [h]
  simp [hc]

/-- Witness instantiating `run_enoent_rejects_descriptive` at
`envNoent`. -/
theorem run_enoent_rejects_descriptive_witness :
    run envNoent "mycmd" [] ⟨none, none, none⟩ =
        Except.error { code := none, message := notFoundMessage "mycmd" } ∧
      containsStr (notFoundMessage "mycmd") "mycmd" = true ∧
      containsStr (notFoundMessage "mycmd") "CURSOR_AGENT_BIN" = true :=
  run_enoent_rejects_descriptive envNoent "mycmd" [] ⟨none, none, none⟩
    { code := some "ENOENT", message := "spawn ENOENT" } rfl rfl

/-- Claim C3: `selectLatestVersion` picks, among the entries matching
the version pattern, the lexicographically greatest one; in particular
with the listing `2024.1.2-abc123`, `2024.10.1-def456` it selects
`2024.10.1-def456`. -/
theorem selectLatestVersion_picks_greatest :
    (∀ (entries : List String) (m : String),
        selectLatestVersion entries = some m →
          m ∈ entries.filter matchesVersionPattern ∧
            ∀ x ∈ entries.filter matchesVersionPattern, strLe x m = true) ∧
      selectLatestVersion ["2024.1.2-abc123", "2024.10.1-def456"] =
        some "2024.10.1-def456" :=
  ⟨selectLatestVersion_greatest, by decide⟩

/-- Witness instantiating `selectLatestVersion_picks_greatest` at the
two-entry listing from the spec. -/
theorem selectLatestVersion_picks_greatest_witness :
    "2024.10.1-def456" ∈
        (["2024.1.2-abc123", "2024.10.1-def456"].filter
          matchesVersionPattern) ∧
      ∀ x ∈ (["2024.1.2-abc123", "2024.10.1-def456"].filter
          matchesVersionPattern),
        strLe x "2024.10.1-def456" = true :=
  selectLatestVersion_picks_greatest.1
    ["2024.1.2-abc123", "2024.10.1-def456"] "2024.10.1-def456" (by decide)

/-- Claim C4: failures inside the Windows resolution step yield `none`
rather than an exception: an unusable `where` lookup result yields
`none`, a throwing versions-directory listing yields `none`, and the
promise returned by `run` can only be rejected by the spawn `error`
event, never by resolution. -/
theorem resolution_failure_yields_none :
    (∀ env : Env,
        (firstLineTrimmed env.whereStdout = "" ∨
          strEndsWith (firstLineTrimmed env.whereStdout) "agent.cmd" =
            false) →
        resolveWindowsCursorAgent env "agent" = none) ∧
      (∀ (env : Env) (cmd : String),
        env.readdirVersions = Except.error () →
        resolveWindowsCursorAgent env cmd = none) ∧
      (∀ (env : Env) (cmd : String) (args : List String) (opts : RunOptions),
        (∃ r, run env cmd args opts = Except.ok r) ∨
          (∃ err, env.spawn (spawnedInvocation env cmd args).1
              (spawnedInvocation env cmd args).2 =
            SpawnOutcome.errored err)) := by
  refine ⟨?_, ?_, ?_⟩
  · intro env h
    have hout : ¬ (firstLineTrimmed env.whereStdout ≠ "" ∧
        strEndsWith (firstLineTrimmed env.whereStdout) "agent.cmd" = true) := by
      rcases h with h | h
      · exact fun hc => hc.1 h
      · exact fun hc => by rw [h] at hc; exact Bool.false_ne_true hc.2
    rcases eq_or_ne env.platform "win32" with hp | hp
    · simp [resolveWindowsCursorAgent, hp, hout]
    · simp [resolveWindowsCursorAgent, hp]
  · intro env cmd h
    simp only [resolveWindowsCursorAgent]
    rw [h]
    split_ifs <;> simp [selectLatestVersion_nil]
  · intro env cmd args opts
    cases hsp : env.spawn (spawnedInvocation env cmd args).1
        (spawnedInvocation env cmd args).2 with
    | errored err => exact Or.inr ⟨err, rfl⟩
    | closed c outs errs =>
      refine Or.inl ⟨⟨c.getD 0, String.join outs, String.join errs⟩, ?_⟩
      simp only [run]
      rw [hsp]

/-- Witness instantiating `resolution_failure_yields_none` at an empty
`where` result, at a throwing listing, and at the run over the
throwing-listing environment. -/
theorem resolution_failure_yields_none_witness :
    resolveWindowsCursorAgent envNoWhere "agent" = none ∧
      resolveWindowsCursorAgent envListErr "C:\\u\\agent.cmd" = none ∧
      ((∃ r, run envListErr "C:\\u\\agent.cmd" [] ⟨none, none, none⟩ =
          Except.ok r) ∨
        (∃ err, envListErr.spawn
            (spawnedInvocation envListErr "C:\\u\\agent.cmd" []).1
            (spawnedInvocation envListErr "C:\\u\\agent.cmd" []).2 =
          SpawnOutcome.errored err)) :=
  ⟨resolution_failure_yields_none.1 envNoWhere (Or.inl rfl),
    resolution_failure_yields_none.2.1 envListErr "C:\\u\\agent.cmd" rfl,
    resolution_failure_yields_none.2.2 envListErr "C:\\u\\agent.cmd" []
      ⟨none, none, none⟩⟩

/-- Claim C5: the invocation actually spawned by `run` is the resolved
bundled interpreter with the entry script prepended (arguments
preserved in order) when Windows resolution succeeds; otherwise, on
win32 with a `.cmd`/`.bat` suffix or the bare agent name, the COMSPEC
interpreter (default `cmd.exe`) with the auto-run-disabling flags
`/d /s /c` plus the original command and arguments; otherwise the
original command and arguments directly. -/
theorem spawnedInvocation_cases (env : Env) (cmd : String)
    (args : List String) :
    (∀ r : AgentRedirect, resolveWindowsCursorAgent env cmd = some r →
        spawnedInvocation env cmd args = (r.cmd, r.argsPrefix ++ args)) ∧
      (resolveWindowsCursorAgent env cmd = none →
        env.platform = "win32" →
        (strEndsWith cmd ".cmd" = true ∨ strEndsWith cmd ".bat" = true ∨
          cmd = "agent") →
        spawnedInvocation env cmd args =
          (orElseJS env.comspec "cmd.exe", ["/d", "/s", "/c", cmd] ++ args)) ∧
      (resolveWindowsCursorAgent env cmd = none →
        ¬ (env.platform = "win32" ∧
            (strEndsWith cmd ".cmd" = true ∨ strEndsWith cmd ".bat" = true ∨
              cmd = "agent")) →
        spawnedInvocation env cmd args = (cmd, args)) := by
  refine ⟨?_, ?_, ?_⟩
  · intro r h
    unfold spawnedInvocation
    rw [h]
  · intro h hw hc
    unfold spawnedInvocation
    rw [h, if_pos ⟨hw, hc⟩]
  · intro h hn
    unfold spawnedInvocation
    rw [h, if_neg hn]

/-- Witness instantiating the three branches of
`spawnedInvocation_cases` at concrete environments. -/
theorem spawnedInvocation_cases_witness :
    spawnedInvocation envRedirect "agent" ["chat"] =
        ("C:\\u\\versions\\2024.10.1-def456\\node.exe",
          ["C:\\u\\versions\\2024.10.1-def456\\index.js"] ++ ["chat"]) ∧
      spawnedInvocation envListErr "foo.cmd" ["x"] =
        (orElseJS envListErr.comspec "cmd.exe",
          ["/d", "/s", "/c", "foo.cmd"] ++ ["x"]) ∧
      spawnedInvocation envClose "foo" ["y"] = ("foo", ["y"]) :=
  ⟨(spawnedInvocation_cases envRedirect "agent" ["chat"]).1
      { cmd := "C:\\u\\versions\\2024.10.1-def456\\node.exe",
        argsPrefix := ["C:\\u\\versions\\2024.10.1-def456\\index.js"] }
      (by decide),
    (spawnedInvocation_cases envListErr "foo.cmd" ["x"]).2.1 (by decide) rfl
      (Or.inl (by decide)),
    (spawnedInvocation_cases envClose "foo" ["y"]).2.2 rfl (by decide)⟩

/-- Claim C6: a timeout timer is armed iff the timeout option is a
number strictly greater than zero, and the armed timer carries that
timeout as its delay and kills the child with SIGKILL when it fires. -/
theorem timerSpec_armed_iff (opts : RunOptions) :
    ((timerSpec opts).isSome = true ↔
        ∃ t, opts.timeoutMs = some t ∧ 0 < t) ∧
      ∀ t a, timerSpec opts = some (t, a) →
        opts.timeoutMs = some t ∧ a = HandlerAction.kill "SIGKILL" := by
  constructor
  · cases h : opts.timeoutMs with
    | none => simp [timerSpec, h]
    | some t =>
      by_cases ht : 0 < t
      · simp [timerSpec, h, ht]
      · simp [timerSpec, h, ht]
  · intro t a h
    cases hm : opts.timeoutMs with
    | none => simp [timerSpec, hm] at h
    | some u =>
      simp only [timerSpec, hm] at h
      split_ifs at h with hu
      · simp only [Option.some.injEq, Prod.mk.injEq] at h
        exact ⟨by rw [h.1], h.2.symm⟩

/-- Witness instantiating `timerSpec_armed_iff` at a 100ms timeout. -/
theorem timerSpec_armed_iff_witness :
    (timerSpec ⟨none, some 100, none⟩).isSome = true ∧
      ((⟨none, some 100, none⟩ : RunOptions).timeoutMs = some 100 ∧
        HandlerAction.kill "SIGKILL" = HandlerAction.kill "SIGKILL") :=
  ⟨(timerSpec_armed_iff ⟨none, some 100, none⟩).1.mpr ⟨100, rfl, by decide⟩,
    (timerSpec_armed_iff ⟨none, some 100, none⟩).2 100
      (HandlerAction.kill "SIGKILL") rfl⟩

/-- Claim C7: whenever the promise settles with an armed timer — on the
`close` event as well as on the `error` event — the handler clears the
timer first and then performs the single resolve or reject action. -/
theorem handlerTrace_clears_timer_first (env : Env) (cmd : String)
    (args : List String) (opts : RunOptions)
    (h : (timerSpec opts).isSome = true) :
    ∃ a, handlerTrace env cmd args opts = [HandlerAction.clearTimer, a] ∧
      ((∃ r, a = HandlerAction.resolve r) ∨
        (∃ e, a = HandlerAction.reject e)) := by
  simp only [handlerTrace]
  rw [if_pos h]
  cases env.spawn (spawnedInvocation env cmd args).1
      (spawnedInvocation env cmd args).2 with
  | errored err =>
    refine ⟨if err.code = some "ENOENT" then
        HandlerAction.reject { code := none, message := notFoundMessage cmd }
      else HandlerAction.reject err, rfl, Or.inr ?_⟩
    by_cases hc : err.code = some "ENOENT"
    · exact ⟨_, if_pos hc⟩
    · exact ⟨_, if_neg hc⟩
  | closed c outs errs =>
    exact ⟨_, rfl, Or.inl ⟨_, rfl⟩⟩

/-- Witness instantiating `handlerTrace_clears_timer_first` at
`envClose` with a 50ms timeout. -/
theorem handlerTrace_clears_timer_first_witness :
    ∃ a, handlerTrace envClose "c" [] ⟨none, some 50, none⟩ =
        [HandlerAction.clearTimer, a] ∧
      ((∃ r, a = HandlerAction.resolve r) ∨
        (∃ e, a = HandlerAction.reject e)) :=
  handlerTrace_clears_timer_first envClose "c" [] ⟨none, some 50, none⟩ rfl

/-- Claim C8 counterexample: with stdin supplied as the empty string
the option is present yet the child's stdin is not connected (JS
truthiness treats the empty string as falsy), refuting "connected iff
input text was supplied". -/
theorem stdin_connected_counterexample :
    (⟨none, none, some ""⟩ : RunOptions).stdin.isSome = true ∧
      stdinStdio ⟨none, none, some ""⟩ = "ignore" ∧
      stdinOps ⟨none, none, some ""⟩ = [] ∧
      ¬ (stdinStdio ⟨none, none, some ""⟩ = "pipe" ↔
          (⟨none, none, some ""⟩ : RunOptions).stdin.isSome = true) := by
  refine ⟨rfl, rfl, rfl, fun hiff => ?_⟩
  have hpipe : stdinStdio ⟨none, none, some ""⟩ = "pipe" := hiff.mpr rfl
  exact absurd hpipe (by decide)

/-- Claim C8 (amended): the child's stdin is connected iff a non-empty
input text was supplied; a supplied non-empty text is written in full
and the stream closed immediately after; and a child echoing the
supplied text yields a RunResult whose stdout equals that text. -/
theorem stdin_connected_iff_nonempty (opts : RunOptions) :
    (stdinStdio opts = "pipe" ↔ ∃ s, opts.stdin = some s ∧ s ≠ "") ∧
      (∀ s, opts.stdin = some s → s ≠ "" →
        stdinOps opts = [StdinOp.write s, StdinOp.close]) ∧
      (∀ (env : Env) (cmd : String) (args : List String) (s : String)
          (c : Option Int),
        opts.stdin = some s →
        env.spawn (spawnedInvocation env cmd args).1
            (spawnedInvocation env cmd args).2 =
          SpawnOutcome.closed c [s] [] →
        ∃ r, run env cmd args opts = Except.ok r ∧ r.stdout = s) := by
  refine ⟨?_, ?_, ?_⟩
  · cases h : opts.stdin with
    | none => simp [stdinStdio, h]
    | some s =>
      by_cases hs : s = ""
      · subst hs
        simp [stdinStdio, h]
      · simp [stdinStdio, h, hs]
  · intro s hs hne
    simp [stdinOps, hs, hne]
  · intro env cmd args s c hst hsp
    refine ⟨⟨c.getD 0, String.join [s], String.join []⟩, ?_, ?_⟩
    · simp only [run]
      rw [hsp]
    · show String.join [s] = s
      cases s
      rfl

/-- Witness instantiating `stdin_connected_iff_nonempty` at the input
text `hello` and the echoing environment `envEcho`. -/
theorem stdin_connected_iff_nonempty_witness :
    stdinStdio ⟨none, none, some "hello"⟩ = "pipe" ∧
      stdinOps ⟨none, none, some "hello"⟩ =
        [StdinOp.write "hello", StdinOp.close] ∧
      ∃ r, run envEcho "cat" [] ⟨none, none, some "hello"⟩ = Except.ok r ∧
        r.stdout = "hello" :=
  ⟨(stdin_connected_iff_nonempty ⟨none, none, some "hello"⟩).1.mpr
      ⟨"hello", rfl, by decide⟩,
    (stdin_connected_iff_nonempty ⟨none, none, some "hello"⟩).2.1 "hello" rfl
      (by decide),
    (stdin_connected_iff_nonempty ⟨none, none, some "hello"⟩).2.2 envEcho
      "cat" [] "hello" (some 0) rfl rfl⟩

/-- Claim C9: a spawn error whose code is not ENOENT rejects the
promise with the underlying error object unchanged. -/
theorem run_propagates_other_errors (env : Env) (cmd : String)
    (args : List String) (opts : RunOptions) (err : JsError)
    (h : env.spawn (spawnedInvocation env cmd args).1
        (spawnedInvocation env cmd args).2 = SpawnOutcome.errored err)
    (hc : err.code ≠ some "ENOENT") :
    run env cmd args opts = Except.error err := by
  simp only [run]
  rw [h]
  simp [hc]

/-- Witness instantiating `run_propagates_other_errors` at an EACCES
error. -/
theorem run_propagates_other_errors_witness :
    run envEacces "tool" [] ⟨none, none, none⟩ =
      Except.error { code := some "EACCES", message := "denied" } :=
  run_propagates_other_errors envEacces "tool" [] ⟨none, none, none⟩
    { code := some "EACCES", message := "denied" } rfl (by decide)

/-- Claim C10: the agent command identifier follows the fixed
precedence CURSOR_AGENT_BIN (set and non-empty), else CURSOR_CLI_BIN,
else CURSOR_CLI_PATH, else the literal default `agent`; in particular a
set, non-empty CURSOR_AGENT_BIN always wins. -/
theorem getCursorAgentBin_precedence (env : PluginEnv) :
    getCursorAgentBin env = getCursorAgentBinSpec env ∧
      ∀ s, env.CURSOR_AGENT_BIN = some s → s ≠ "" →
        getCursorAgentBin env = s := by
  constructor
  · rcases env with ⟨a, b, c⟩
    cases a <;> cases b <;> cases c <;>
      simp only [getCursorAgentBin, getCursorAgentBinSpec, orElseJS] <;>
      split_ifs <;> simp_all
  · intro s hs hne
    unfold getCursorAgentBin
    rw [hs]
    simp [orElseJS, hne]

/-- Witness instantiating `getCursorAgentBin_precedence` with all three
variables set. -/
theorem getCursorAgentBin_precedence_witness :
    getCursorAgentBin ⟨some "mybin", some "b", some "c"⟩ = "mybin" :=
  (getCursorAgentBin_precedence ⟨some "mybin", some "b", some "c"⟩).2
    "mybin" rfl (by decide)

end CursorBridge
